import Mathlib

/-!
Shallow embedding of `src/hotel_analysis_dashboard.py` (a hotel-listing
dashboard).  Python floats are modelled as exact rationals (`ℚ`); pandas
missing values (`NaN` / `None`) as `Option`; a raised exception that aborts a
computation as an `Option`-level `none` of the surrounding function.
-/

namespace HotelDashboard

/-- Characters matched by the character class of `re.findall(r"[\d.]+", s)`:
ASCII digits and the dot. -/
def numChar (c : Char) : Bool := c.isDigit || c == '.'

/-- Base-10 value of a list of ASCII digit characters. -/
def digitsVal (l : List Char) : ℕ :=
  l.foldl (fun acc c => 10 * acc + (c.toNat - 48)) 0

/-- Python `float` on a string made only of digits and dots: defined exactly
when the string is nonempty, has at most one dot and at least one digit,
yielding the decimal value; `none` models the raised `ValueError`. -/
def parseDigitsDots (l : List Char) : Option ℚ :=
  if l.isEmpty then none
  else if l.count '.' = 0 then some (digitsVal l)
  else if l.count '.' = 1 ∧ 2 ≤ l.length then
    let ip := l.takeWhile (fun c => !(c == '.'))
    let fp := (l.dropWhile (fun c => !(c == '.'))).tail
    some ((digitsVal ip : ℚ) + (digitsVal fp : ℚ) / 10 ^ fp.length)
  else none

/-- Guard that the input really is digits-and-dots before reading its value. -/
def parseUnsigned (l : List Char) : Option ℚ :=
  if l.all numChar then parseDigitsDots l else none

/-- Strip leading and trailing whitespace, as Python `float` does. -/
def trimEnds (l : List Char) : List Char :=
  ((l.dropWhile Char.isWhitespace).reverse.dropWhile Char.isWhitespace).reverse

/-- Python `float(s)` on an arbitrary string, for the plain decimal forms
`[ws] [+|-] digits [. digits] [ws]` (exponent notation, `inf`/`nan` and digit
underscores do not occur in the inputs this file reasons about); `none`
models the raised `ValueError`. -/
def parsePyFloat (s : String) : Option ℚ :=
  match trimEnds s.toList with
  | '+' :: rest => parseUnsigned rest
  | '-' :: rest => (parseUnsigned rest).map (fun q => -q)
  | l => parseUnsigned l

/-- First maximal run of `[\d.]` characters: the first element of
`re.findall(r"[\d.]+", s)`, or `none` when there is no match. -/
def firstRun : List Char → Option (List Char)
  | [] => none
  | c :: cs => if numChar c then some (c :: cs.takeWhile numChar) else firstRun cs

/-- Model of `str(price_str).replace("₹", "").replace(",", "")` (src line 53). -/
def cleanPrice (s : String) : List Char :=
  s.toList.filter (fun c => !(c == '₹' || c == ','))

/-- Function `extract_price` (src lines 48-57): `None` for a missing or empty
price; otherwise strip `₹` and commas, take the first `[\d.]+` run and apply
`float` to it; no run, or a `ValueError` from `float`, yields `None`. -/
def extract_price (price_str : Option String) : Option ℚ :=
  match price_str with
  | none => none
  | some s =>
    if s = "" then none
    else
      match firstRun (cleanPrice s) with
      | none => none
      | some run => parseUnsigned run

/-- Model of `s.replace(",", "")` for a reviews cell. -/
def stripCommas (s : String) : String :=
  String.mk (s.toList.filter (fun c => !(c == ',')))

/-- One cell of `df["reviews"].str.replace(",", "").astype(float)`
(src line 67): a missing (non-string) cell stays missing; a string cell must
parse as a float, and a parse failure is the raised `ValueError`, modelled as
the outer `none`. -/
def reviewCell (v : Option String) : Option (Option ℚ) :=
  match v with
  | none => some none
  | some t => (parsePyFloat (stripCommas t)).map some

/-- The reviews-column transformation inside `load_data` (src line 67): the
first cell whose string fails to parse raises `ValueError`, which the
`except` at src line 72 turns into a load-level failure (`none`), dropping
every record. -/
def loadReviewsColumn : List (Option String) → Option (List (Option ℚ))
  | [] => some []
  | v :: vs =>
    match reviewCell v, loadReviewsColumn vs with
    | some q, some qs => some (q :: qs)
    | _, _ => none

/-- One normalized hotel record after `load_data`. -/
structure Hotel where
  name : Option String
  rating : Option ℚ
  reviews : Option ℚ
  price : Option String
  price_numeric : Option ℚ
  amenities : List String
  link : Option String
deriving DecidableEq

/-- The sidebar filter inputs of `main` (price range, rating range, required
amenities). -/
structure Criteria where
  priceLo : ℚ
  priceHi : ℚ
  ratingLo : ℚ
  ratingHi : ℚ
  requiredAmenities : List String
deriving DecidableEq

/-- Price condition `(df["price_numeric"] >= lo) & (df["price_numeric"] <= hi)`
at one record (src line 120); pandas comparisons against `NaN` are false. -/
def pricePass (lo hi : ℚ) (h : Hotel) : Bool :=
  match h.price_numeric with
  | none => false
  | some p => decide (lo ≤ p ∧ p ≤ hi)

/-- Rating condition `(df["rating"] >= lo) & (df["rating"] <= hi)` at one
record (src line 121); pandas comparisons against `NaN` are false. -/
def ratingPass (lo hi : ℚ) (h : Hotel) : Bool :=
  match h.rating with
  | none => false
  | some r => decide (lo ≤ r ∧ r ≤ hi)

/-- Amenity condition `if selected_amenities: mask &= all(amenity in x for
amenity in selected_amenities)` (src lines 122-123). -/
def amenityCond (req : List String) (h : Hotel) : Bool :=
  if req.isEmpty then true
  else req.all (fun a => h.amenities.contains a)

/-- Check `len(df["price_numeric"].dropna()) > 0` (src lines 94-95, 119). -/
def anyValidPrice (df : List Hotel) : Bool :=
  df.any (fun h => h.price_numeric.isSome)

/-- The boolean inclusion mask of `main` (src lines 118-123); the price
condition is only applied when some record of the whole table has a parseable
price. -/
def inclusionMask (df : List Hotel) (c : Criteria) (h : Hotel) : Bool :=
  (if anyValidPrice df then pricePass c.priceLo c.priceHi h else true)
  && ratingPass c.ratingLo c.ratingHi h
  && amenityCond c.requiredAmenities h

/-- Filtered table `df_filtered = df[mask]` (src line 125). -/
def filterHotels (df : List Hotel) (c : Criteria) : List Hotel :=
  df.filter (inclusionMask df c)

/-- Lower-case a character list (the `case=False` of `str.contains`). -/
def lowerChars (l : List Char) : List Char := l.map Char.toLower

/-- Does `needle` occur at the head of `hay`? -/
def matchesAt : List Char → List Char → Bool
  | [], _ => true
  | _ :: _, [] => false
  | a :: as, b :: bs => a == b && matchesAt as bs

/-- All suffixes of a list. -/
def tailsList {α : Type} : List α → List (List α)
  | [] => [[]]
  | a :: as => (a :: as) :: tailsList as

/-- Substring containment on character lists. -/
def containsSub (hay needle : List Char) : Bool :=
  (tailsList hay).any (fun t => matchesAt needle t)

/-- Name-query match
`df_filtered["name"].str.contains(search_query, case=False, na=False)` at one
record (src line 132): missing names never match (`na=False`); queries are
compared case-insensitively.  For queries free of regex metacharacters — the
only ones this file reasons about — `str.contains` is substring containment. -/
def nameMatch (q : String) (h : Hotel) : Bool :=
  match h.name with
  | none => false
  | some n => containsSub (lowerChars n.toList) (lowerChars q.toList)

/-- pandas `Series.mean` over the present values: `NaN` (here `none`) on an
empty series, never an error. -/
def meanOpt (l : List ℚ) : Option ℚ :=
  if l.isEmpty then none else some (l.sum / l.length)

/-- Stable insertion of an element into a sorted list. -/
def insertSorted {α : Type} (le : α → α → Bool) (a : α) : List α → List α
  | [] => [a]
  | b :: bs => if le a b then a :: b :: bs else b :: insertSorted le a bs

/-- Stable sort by a boolean comparison (the model used here for pandas
`sort_values` / `nlargest` / `median` ordering). -/
def sortWith {α : Type} (le : α → α → Bool) : List α → List α
  | [] => []
  | a :: as => insertSorted le a (sortWith le as)

/-- Sort rationals ascending. -/
def sortQ (l : List ℚ) : List ℚ := sortWith (fun a b => decide (a ≤ b)) l

/-- pandas `Series.median` over the present values: `NaN` (here `none`) on an
empty series, middle element (or mean of the two middle elements) otherwise. -/
def medianOpt (l : List ℚ) : Option ℚ :=
  let s := sortQ l
  if s.isEmpty then none
  else if s.length % 2 = 1 then some (s.getD (s.length / 2) 0)
  else some ((s.getD (s.length / 2 - 1) 0 + s.getD (s.length / 2) 0) / 2)

/-- Mean rating `df_filtered["rating"].mean()` (src line 155): pandas skips
`NaN` ratings. -/
def meanRating (hs : List Hotel) : Option ℚ :=
  meanOpt (hs.filterMap (fun h => h.rating))

/-- Median price `df_filtered["price_numeric"].median()` (src line 161):
pandas skips `NaN` prices. -/
def medianPriceOf (hs : List Hotel) : Option ℚ :=
  medianOpt (hs.filterMap (fun h => h.price_numeric))

/-- Helper for the thousands separator: group a reversed digit list in threes. -/
def groupRev : List Char → List Char
  | a :: b :: c :: rest@(_ :: _) => a :: b :: c :: ',' :: groupRev rest
  | l => l

/-- Insert a separator every three digits from the right, as `{:,}` does. -/
def commaGroup (l : List Char) : List Char := (groupRev l.reverse).reverse

/-- Rendering of `{:,.2f}` on an exact rational: two decimals (a tie at the
half-way point modelled as round-half-up) with thousands separators. -/
def moneyText (a : ℚ) : String :=
  let n : ℤ := round (a * 100)
  let m := n.natAbs
  (if n < 0 then "-" else "")
    ++ String.mk (commaGroup (Nat.toDigits 10 (m / 100)))
    ++ "." ++ (if m % 100 < 10 then "0" else "") ++ toString (m % 100)

/-- Function `format_currency` (src lines 42-46): `"N/A"` for missing input,
otherwise the `₹`-prefixed localized rendering. -/
def format_currency (amount : Option ℚ) : String :=
  match amount with
  | none => "N/A"
  | some a => "₹" ++ moneyText a

/-- Top-5 table `df_filtered.nlargest(5, "rating")` (src line 166): pandas
drops the rows whose sort column is `NaN`, orders the rest by rating
descending (stably, `keep="first"`), and takes the first 5. -/
def topRatedHotels (hs : List Hotel) : List Hotel :=
  (sortWith (fun h1 h2 => decide (h2.rating.getD 0 ≤ h1.rating.getD 0))
    (hs.filter (fun h => h.rating.isSome))).take 5

/-- Dict update `amenity_counts[amenity] = amenity_counts.get(amenity, 0) + 1`
(src line 184): the Python dict, with its insertion-ordered keys, is modelled
as an association list. -/
def bump : List (String × ℕ) → String → List (String × ℕ)
  | [], a => [(a, 1)]
  | p :: ps, a => if p.1 = a then (p.1, p.2 + 1) :: ps else p :: bump ps a

/-- The `amenity_counts` dict built over the filtered set (src lines 181-184). -/
def amenityCounts (hs : List Hotel) : List (String × ℕ) :=
  hs.foldl (fun d h => h.amenities.foldl bump d) []

/-- Lookup `amenity_counts.get(a, 0)`. -/
def getCount : List (String × ℕ) → String → ℕ
  | [], _ => 0
  | p :: ps, a => if p.1 = a then p.2 else getCount ps a

/-- Model of `.sort_values("Count", ascending=True)` on the (Amenity, Count)
table. -/
def sortByCount (l : List (String × ℕ)) : List (String × ℕ) :=
  sortWith (fun p q => decide (p.2 ≤ q.2)) l

/-- Model of `.tail(n)` of a DataFrame: its last `n` rows. -/
def takeLast {α : Type} (n : ℕ) (l : List α) : List α := l.drop (l.length - n)

/-- The amenity table fed to the bar chart (src lines 186-190): sort by count
ascending, keep the last 10 rows. -/
def amenityDisplay (hs : List Hotel) : List (String × ℕ) :=
  takeLast 10 (sortByCount (amenityCounts hs))

/-- Everything `main` renders from the data once the sidebar values and the
name query are fixed. -/
structure DashboardView where
  searchResults : Option (List Hotel)
  avgRating : Option ℚ
  totalHotels : ℕ
  medianPriceText : String
  topHotels : List Hotel
  amenityChart : List (String × ℕ)
  scatterData : List Hotel
deriving DecidableEq

/-- The render pipeline of `main` (src lines 118-237) as a function of the
loaded table, the sidebar criteria and the free-text name query; an empty
query renders no search section (src line 131). -/
def renderDashboard (df : List Hotel) (c : Criteria) (q : String) : DashboardView :=
  let fil := filterHotels df c
  { searchResults := if q = "" then none else some (fil.filter (nameMatch q))
    avgRating := meanRating fil
    totalHotels := fil.length
    medianPriceText := format_currency (medianPriceOf fil)
    topHotels := topRatedHotels fil
    amenityChart := amenityDisplay fil
    scatterData := fil.filter (fun h => h.price_numeric.isSome && h.rating.isSome) }

/-- A record literal with the fields the claims exercise. -/
def mkHotel (nm : Option String) (r : Option ℚ) (p : Option ℚ)
    (ams : List String) : Hotel :=
  { name := nm, rating := r, reviews := none, price := none,
    price_numeric := p, amenities := ams, link := none }

/-- Concrete record used by the amenity-filter examples. -/
def sampleWifiPool : Hotel := mkHotel (some "Grand") (some 4) none ["wifi", "pool"]

/-- Concrete record with a missing rating. -/
def sampleNoRating : Hotel := mkHotel (some "Plain") none (some 100) []

/-- Concrete record used by the amenity-count example. -/
def sampleWifiOnly : Hotel := mkHotel (some "Inn") (some 3) none ["wifi"]

/-! Helper lemmas. -/

/-- Values produced by `parseDigitsDots` are non-negative. -/
theorem parseDigitsDots_nonneg {l : List Char} {q : ℚ}
    (hq : parseDigitsDots l = some q) : 0 ≤ q := by
  unfold parseDigitsDots at hq
  split at hq
  · simp at hq
  · split at hq
    · injection hq with hq
      rw [← hq]
      positivity
    · split at hq
      · injection hq with hq
        rw [← hq]
        positivity
      · simp at hq

/-- Values produced by `parseUnsigned` are non-negative. -/
theorem parseUnsigned_nonneg {l : List Char} {q : ℚ}
    (hq : parseUnsigned l = some q) : 0 ≤ q := by
  unfold parseUnsigned at hq
  split at hq
  · exact parseDigitsDots_nonneg hq
  · simp at hq

/-- Inserting grows the length by one. -/
theorem length_insertSorted {α : Type} (le : α → α → Bool) (a : α)
    (l : List α) : (insertSorted le a l).length = l.length + 1 := by
  induction l with
  | nil => rfl
  | cons b bs ih =>
    unfold insertSorted
    split
    · simp
    · simp [ih]

/-- Sorting preserves the length. -/
theorem length_sortWith {α : Type} (le : α → α → Bool) (l : List α) :
    (sortWith le l).length = l.length := by
  induction l with
  | nil => rfl
  | cons a as ih => simp [sortWith, length_insertSorted, ih]

/-- Membership in an insertion. -/
theorem mem_insertSorted {α : Type} (le : α → α → Bool) (a x : α)
    (l : List α) : x ∈ insertSorted le a l ↔ x = a ∨ x ∈ l := by
  induction l with
  | nil => simp [insertSorted]
  | cons b bs ih =>
    unfold insertSorted
    split
    · simp [List.mem_cons]
    · simp only [List.mem_cons, ih]
      tauto

/-- Sorting preserves membership. -/
theorem mem_sortWith {α : Type} (le : α → α → Bool) (x : α) (l : List α) :
    x ∈ sortWith le l ↔ x ∈ l := by
  induction l with
  | nil => simp [sortWith]
  | cons a as ih =>
    unfold sortWith
    rw [mem_insertSorted]
    simp [ih]

/-- One dict update changes exactly the updated key's count. -/
theorem getCount_bump (d : List (String × ℕ)) (a b : String) :
    getCount (bump d a) b = getCount d b + (if b = a then 1 else 0) := by
  induction d with
  | nil =>
    by_cases hba : b = a
    · subst hba; simp [bump, getCount]
    · have hab : ¬ a = b := fun h => hba h.symm
      simp [bump, getCount, hba, hab]
  | cons p ps ih =>
    by_cases hpa : p.1 = a
    · by_cases hbp : b = p.1
      · simp [bump, getCount, hpa, hbp, hbp.trans hpa]
      · have hba : ¬ b = a := fun h => hbp (h.trans hpa.symm)
        have hab : ¬ a = b := fun h => hba h.symm
        simp [bump, getCount, hpa, hab, hba]
    · by_cases hbp : b = p.1
      · subst hbp
        simp [bump, getCount, hpa]
      · have hpb : ¬ p.1 = b := fun h => hbp h.symm
        simp [bump, getCount, hpa, hpb, ih]

/-- Folding the dict update over a list of labels adds each label's
multiplicity. -/
theorem getCount_foldl_bump (l : List String) (d : List (String × ℕ))
    (b : String) : getCount (l.foldl bump d) b = getCount d b + l.count b := by
  induction l generalizing d with
  | nil => simp
  | cons a as ih =>
    rw [List.foldl_cons, ih, getCount_bump]
    by_cases hba : b = a <;> (simp [List.count_cons, hba, beq_iff_eq]; try omega)

/-- Folding the per-record update over the table adds each record's
contribution. -/
theorem getCount_foldl_hotels (hs : List Hotel) (d : List (String × ℕ))
    (a : String) :
    getCount (hs.foldl (fun d h => h.amenities.foldl bump d) d) a
      = getCount d a + (hs.map (fun h => h.amenities.count a)).sum := by
  induction hs generalizing d with
  | nil => simp
  | cons h hs ih =>
    rw [List.foldl_cons, ih, getCount_foldl_bump]
    rw [List.map_cons, List.sum_cons]
    omega

/-- Evaluation rule for `parseDigitsDots` on a one-dot input. -/
theorem parseDigitsDots_eval {l ip fp : List Char}
    (h0 : l.isEmpty = false) (h1 : l.count '.' = 1) (h2 : 2 ≤ l.length)
    (hip : l.takeWhile (fun c => !(c == '.')) = ip)
    (hfp : (l.dropWhile (fun c => !(c == '.'))).tail = fp) :
    parseDigitsDots l
      = some ((digitsVal ip : ℚ) + (digitsVal fp : ℚ) / 10 ^ fp.length) := by
  unfold parseDigitsDots
  simp [h0, h1, h2, hip, hfp]

/-- The `amenity_counts` dict holds exactly the occurrence counts. -/
theorem getCount_amenityCounts (hs : List Hotel) (a : String) :
    getCount (amenityCounts hs) a
      = (hs.map (fun h => h.amenities.count a)).sum := by
  unfold amenityCounts
  rw [getCount_foldl_hotels]
  simp [getCount]

/-! Claim theorems. -/

/-- C1: for every input price string, `price_numeric` is either missing or a
non-negative parsed value equal to the value of the first contiguous numeric
run found after stripping `₹` and commas; `"₹12,345.50"` gives `12345.50`,
while `""` and `"Contact for price"` give missing. -/
theorem extract_price_spec :
    (extract_price none = none)
    ∧ (∀ s : String, extract_price (some s) = none ∨
        ∃ q run, extract_price (some s) = some q ∧ 0 ≤ q ∧
          firstRun (cleanPrice s) = some run ∧ parseUnsigned run = some q)
    ∧ extract_price (some "₹12,345.50") = some (12345.50 : ℚ)
    ∧ extract_price (some "") = none
    ∧ extract_price (some "Contact for price") = none := by
  refine ⟨rfl, ?_, ?_, by decide, by decide⟩
  swap
  · have hfr : firstRun (cleanPrice "₹12,345.50")
        = some ['1', '2', '3', '4', '5', '.', '5', '0'] := by decide
    have hall : (['1', '2', '3', '4', '5', '.', '5', '0'] : List Char).all numChar = true := by
      decide
    have hpd := parseDigitsDots_eval (l := ['1', '2', '3', '4', '5', '.', '5', '0'])
      (by decide) (by decide) (by decide)
      (show _ = ['1', '2', '3', '4', '5'] by decide)
      (show _ = ['5', '0'] by decide)
    have hv1 : digitsVal ['1', '2', '3', '4', '5'] = 12345 := by decide
    have hv2 : digitsVal ['5', '0'] = 50 := by decide
    simp only [extract_price]
    rw [if_neg (by decide)]
    simp only [hfr]
    unfold parseUnsigned
    rw [if_pos hall, hpd, hv1, hv2]
    norm_num
  intro s
  by_cases hs : s = ""
  · left; simp [extract_price, hs]
  · cases hfr : firstRun (cleanPrice s) with
    | none => left; simp [extract_price, hs, hfr]
    | some run =>
      cases hp : parseUnsigned run with
      | none => left; simp [extract_price, hs, hfr, hp]
      | some q =>
        right
        exact ⟨q, run, by simp [extract_price, hs, hfr, hp],
          parseUnsigned_nonneg hp, rfl, hp⟩

/-- C2 counterexample: a reviews string that fails to parse does not become a
missing value — it makes the whole load fail, so even the well-formed record
`"1,234"` is lost; without the bad record the same table loads fine. -/
theorem loadReviews_failure_blocks :
    loadReviewsColumn [some "1,234", some "abc"] = none
    ∧ loadReviewsColumn [some "1,234"] = some [some 1234]
    ∧ loadReviewsColumn [some "1,234", some "abc"]
        ≠ some [some 1234, none] := by
  refine ⟨by decide, by decide, by decide⟩

/-- C2 amended: each reviews cell is normalized by stripping commas and
parsing as float, and a missing (non-string) cell yields the missing
sentinel; but when every string cell parses — and only then — does the column
load, each record getting its parsed value; a string cell that fails to parse
raises, the load-level handler catches it, and no records load at all. -/
theorem loadReviews_amended (raw : List (Option String))
    (hok : ∀ t : String, some t ∈ raw →
      (parsePyFloat (stripCommas t)).isSome = true) :
    loadReviewsColumn raw =
      some (raw.map (fun v => v.bind (fun t => parsePyFloat (stripCommas t)))) := by
  induction raw with
  | nil => rfl
  | cons v vs ih =>
    have hvs := ih (fun t ht => hok t (List.mem_cons_of_mem _ ht))
    cases v with
    | none => simp [loadReviewsColumn, reviewCell, hvs]
    | some t =>
      have hsome := hok t (List.mem_cons_self _ _)
      cases hp : parsePyFloat (stripCommas t) with
      | none => rw [hp] at hsome; simp at hsome
      | some q => simp [loadReviewsColumn, reviewCell, hp, hvs]

/-- C2 amended, witness: a column whose string cells all parse loads, with the
missing cell kept missing. -/
theorem loadReviews_amended_witness :
    loadReviewsColumn [some "1,234", none] = some [some 1234, none] := by
  have hw := loadReviews_amended [some "1,234", none] ?_
  · exact hw.trans (by decide)
  · intro t ht
    simp only [List.mem_cons, List.not_mem_nil, or_false] at ht
    rcases ht with h1 | h1
    · cases Option.some.inj h1; decide
    · exact absurd h1 (Option.some_ne_none t)

/-- C3: when no record of the table has a parseable price, the price-range
condition is skipped entirely and the filtered set is exactly the one cut out
by the rating and amenity conditions alone. -/
theorem filter_skips_price_when_all_missing (df : List Hotel) (c : Criteria)
    (hmiss : ∀ x ∈ df, x.price_numeric = none) :
    filterHotels df c =
      df.filter (fun x => ratingPass c.ratingLo c.ratingHi x
        && amenityCond c.requiredAmenities x) := by
  have hav : anyValidPrice df = false := by
    unfold anyValidPrice
    rw [List.any_eq_false]
    intro x hx
    simp [hmiss x hx]
  unfold filterHotels
  exact List.filter_congr (fun x _ => by simp [inclusionMask, hav])

/-- C3 witness: a concrete two-record table with no parseable price filters
exactly as rating-and-amenity alone dictate. -/
theorem filter_skips_price_witness :
    filterHotels [sampleWifiPool, sampleWifiOnly] ⟨0, 1000, 0, 5, []⟩ =
      ([sampleWifiPool, sampleWifiOnly]).filter
        (fun x => ratingPass (0 : ℚ) (5 : ℚ) x && amenityCond [] x) :=
  filter_skips_price_when_all_missing [sampleWifiPool, sampleWifiOnly]
    ⟨0, 1000, 0, 5, []⟩ (by decide)

/-- C4: a record passes the rating condition exactly when its rating is
present and lies between the bounds inclusive, and a record with a missing
rating is excluded from every filtered set using those bounds. -/
theorem rating_condition_spec (rlo rhi : ℚ) (h : Hotel) :
    (ratingPass rlo rhi h = true ↔ ∃ r, h.rating = some r ∧ rlo ≤ r ∧ r ≤ rhi)
    ∧ (h.rating = none → ∀ df plo phi req,
        h ∉ filterHotels df ⟨plo, phi, rlo, rhi, req⟩) := by
  constructor
  · cases hr : h.rating with
    | none => simp [ratingPass, hr]
    | some r => simp [ratingPass, hr]
  · intro hnone df plo phi req hmem
    have hmask := (List.mem_filter.mp hmem).2
    simp [inclusionMask, ratingPass, hnone] at hmask

/-- C4 witness: the concrete record with a missing rating is excluded. -/
theorem rating_condition_witness :
    sampleNoRating ∉ filterHotels [sampleNoRating] ⟨0, 1000, 0, 5, []⟩ :=
  (rating_condition_spec 0 5 sampleNoRating).2 rfl [sampleNoRating] 0 1000 []

/-- C5: a record passes the amenity condition exactly when its amenity set is
a superset of the required set; the empty requirement always passes; the
record with amenities `wifi, pool` passes requirement `wifi` and fails
requirement `wifi, spa`. -/
theorem amenity_condition_spec (req : List String) (h : Hotel) :
    (amenityCond req h = true ↔ ∀ a ∈ req, a ∈ h.amenities)
    ∧ amenityCond [] h = true
    ∧ amenityCond ["wifi"] sampleWifiPool = true
    ∧ amenityCond ["wifi", "spa"] sampleWifiPool = false := by
  refine ⟨?_, rfl, by decide, by decide⟩
  cases req with
  | nil => simp [amenityCond]
  | cons b bs => simp [amenityCond, List.all_eq_true]

/-- C5 witness: the superset characterization applied at the concrete record. -/
theorem amenity_condition_witness :
    amenityCond ["wifi"] sampleWifiPool = true :=
  (amenity_condition_spec ["wifi"] sampleWifiPool).1.mpr (by decide)

/-- C6: the name query touches only the search-results view — the statistics,
top-5 table, amenity chart and scatter data are identical for any two
queries — and the search view is the filtered set further restricted by the
case-insensitive name match (absent when the query is empty). -/
theorem searchQuery_frame (df : List Hotel) (c : Criteria) (q1 q2 : String) :
    ((renderDashboard df c q1).avgRating = (renderDashboard df c q2).avgRating
    ∧ (renderDashboard df c q1).totalHotels = (renderDashboard df c q2).totalHotels
    ∧ (renderDashboard df c q1).medianPriceText = (renderDashboard df c q2).medianPriceText
    ∧ (renderDashboard df c q1).topHotels = (renderDashboard df c q2).topHotels
    ∧ (renderDashboard df c q1).amenityChart = (renderDashboard df c q2).amenityChart
    ∧ (renderDashboard df c q1).scatterData = (renderDashboard df c q2).scatterData)
    ∧ (renderDashboard df c q1).searchResults =
        (if q1 = "" then none
         else some ((filterHotels df c).filter (nameMatch q1))) :=
  ⟨⟨rfl, rfl, rfl, rfl, rfl, rfl⟩, rfl⟩

/-- C7: on an empty filtered set the mean rating and the median price are the
defined no-data values rather than errors, and whenever no present
`price_numeric` exists the median price renders as `"N/A"`. -/
theorem empty_filtered_stats (hs : List Hotel) :
    (hs = [] → meanRating hs = none
      ∧ format_currency (medianPriceOf hs) = "N/A")
    ∧ (hs.filterMap (fun h => h.price_numeric) = [] →
        format_currency (medianPriceOf hs) = "N/A") := by
  constructor
  · rintro rfl
    exact ⟨rfl, rfl⟩
  · intro hp
    simp only [medianPriceOf, hp]
    rfl

/-- C7 witness: the no-data results at the empty filtered set. -/
theorem empty_filtered_stats_witness :
    meanRating [] = none ∧ format_currency (medianPriceOf []) = "N/A" :=
  (empty_filtered_stats []).1 rfl

/-- C8: the amenity frequency table maps each label to its number of
occurrences across the filtered set's amenity lists — the two-record example
gives wifi 2 and pool 1 — and the displayed table is that table sorted by
count ascending and truncated to the last (largest) 10 rows. -/
theorem amenity_counts_spec (hs : List Hotel) (a : String) :
    getCount (amenityCounts hs) a
        = (hs.map (fun h => h.amenities.count a)).sum
    ∧ amenityDisplay hs = takeLast 10 (sortByCount (amenityCounts hs))
    ∧ amenityCounts [sampleWifiPool, sampleWifiOnly]
        = [("wifi", 2), ("pool", 1)] :=
  ⟨getCount_amenityCounts hs a, rfl, by decide⟩

/-- C9: filtering its own output with the same criteria changes nothing. -/
theorem filter_idempotent (df : List Hotel) (c : Criteria) :
    filterHotels (filterHotels df c) c = filterHotels df c := by
  have key : ∀ h ∈ filterHotels df c,
      inclusionMask (filterHotels df c) c h = true := by
    intro h hmem
    have hmask := (List.mem_filter.mp hmem).2
    simp only [inclusionMask, Bool.and_eq_true] at hmask ⊢
    refine ⟨⟨?_, hmask.1.2⟩, hmask.2⟩
    cases hF : anyValidPrice (filterHotels df c) with
    | false => simp
    | true =>
      simp only [if_pos rfl]
      cases hD : anyValidPrice df with
      | true =>
        have hp := hmask.1.1
        rw [hD] at hp
        simpa using hp
      | false =>
        exfalso
        unfold anyValidPrice at hF hD
        obtain ⟨x, hxF, hxsome⟩ := List.any_eq_true.mp hF
        have hxdf : x ∈ df := (List.mem_filter.mp hxF).1
        have hall := List.any_eq_false.mp hD x hxdf
        exact hall hxsome
  exact List.filter_eq_self.mpr key

/-- C10: the top-rated table is built only from records whose rating is
present: every entry has a present rating, and its length is the smaller of 5
and the number of records with a present rating (never padded with
missing-rating records). -/
theorem top5_only_present_ratings (hs : List Hotel) :
    (∀ h ∈ topRatedHotels hs, h.rating.isSome = true)
    ∧ (topRatedHotels hs).length
        = min 5 (hs.filter (fun h => h.rating.isSome)).length := by
  constructor
  · intro h hmem
    have h1 := List.mem_of_mem_take hmem
    have h2 := (mem_sortWith _ h _).mp h1
    exact (List.mem_filter.mp h2).2
  · simp [topRatedHotels, List.length_take, length_sortWith]

/-- C10 witness: the theorem applied at a concrete one-record table whose
record sits in the top-5 table. -/
theorem top5_only_present_witness :
    sampleWifiPool.rating.isSome = true :=
  (top5_only_present_ratings [sampleWifiPool]).1 sampleWifiPool (by decide)

end HotelDashboard
